import Mathlib

/-!
Verification development for the IceTea converters.

The repository has two source files:

* `src/IceTeaCCI/sql_to_xlsx.py` — the forward mapper: runs a SQL script in an
  in-memory sqlite database, then writes one worksheet per table of the
  resulting schema, storing per-column metadata in cell comments and the
  sheet-title/table-name link in the workbook description.
* `xlsx_to_sql.py` — the reverse mapper: reads a workbook and emits a SQL
  script (`BEGIN TRANSACTION; CREATE TABLE ...; INSERT INTO ...; COMMIT;`).

The embedding below models text as `List Char` (Python strings indexed and
sliced by character), Python cell scalars as an explicit `Value` type with
Python truthiness, and the collaborating libraries at the boundary the code
uses them through:

* openpyxl: a `Sheet` is its title plus the stored grid of cells; reading a
  cell outside the stored grid yields an empty cell (value `None`, no
  comment), which is exactly how `sheet.cell(row, column)` behaves for
  untouched coordinates.
* sqlite3: the database reached after `executescript` is modelled as the list
  of `sqlite_master` rows together with, for each table, its
  `PRAGMA table_info` column records and its `SELECT *` rows.
* json: `json.dumps` / `json.loads` are modelled for flat JSON objects whose
  values are strings, integers, booleans or null — the grammar this program
  exchanges.  Strings are escaped/unescaped for `"` and `\`; the modelled
  domain for exact byte fidelity of `dumps` is printable-ASCII payloads
  (Python additionally `\u`-escapes control and non-ASCII characters, which
  the round-trip theorems exclude by hypothesis).  Error objects carry no
  message text for library exceptions (`json.JSONDecodeError`, `KeyError`),
  only their kind.
-/

abbrev Str := List Char

def str (s : String) : Str := s.data

/-- Python cell scalar values as they occur in this pipeline: strings,
integers and booleans (sqlite query results and user-edited cells).  A
missing value (Python `None` / an empty cell) is `Option.none` at use sites. -/
inductive Value where
  | vstr (s : Str)
  | vint (n : Int)
  | vbool (b : Bool)
deriving DecidableEq

/-- Python truthiness of a value: `''`, `0` and `False` are falsy. -/
def Value.truthy : Value → Bool
  | .vstr s => !s.isEmpty
  | .vint n => n != 0
  | .vbool b => b

/-- Python truthiness of `cell.value`, where `None` is falsy. -/
def truthyV : Option Value → Bool
  | none => false
  | some v => v.truthy

/-- Python `str()` on a scalar value. -/
def Value.pystr : Value → Str
  | .vstr s => s
  | .vint n => (toString n).data
  | .vbool b => if b then str "True" else str "False"

/-- Python `==` restricted to this value universe: strings compare by
content, numbers and booleans compare numerically (`1 == True` in Python),
and strings never equal numbers or booleans. -/
def pyEq : Value → Value → Bool
  | .vstr a, .vstr b => a == b
  | .vint a, .vint b => a == b
  | .vbool a, .vbool b => a == b
  | .vint a, .vbool b => a == (if b then (1 : Int) else 0)
  | .vbool a, .vint b => (if a then (1 : Int) else 0) == b
  | _, _ => false

/-- Python `primary_key_field == field_name` where `primary_key_field` may
still be `None`; `None == v` is `False` for every scalar `v` here. -/
def optPyEq : Option Value → Value → Bool
  | none, _ => false
  | some a, b => pyEq a b

/-! ## JSON values (the flat objects exchanged through cell comments) -/

inductive JVal where
  | jstr (s : Str)
  | jint (n : Int)
  | jbool (b : Bool)
  | jnull
deriving DecidableEq

abbrev JObj := List (Str × JVal)

/-- Python truthiness of a decoded JSON scalar. -/
def JVal.jtruthy : JVal → Bool
  | .jstr s => !s.isEmpty
  | .jint n => n != 0
  | .jbool b => b
  | .jnull => false

/-- Python `str()` of a decoded JSON scalar (as interpolated by an f-string). -/
def JVal.jpystr : JVal → Str
  | .jstr s => s
  | .jint n => (toString n).data
  | .jbool b => if b then str "True" else str "False"
  | .jnull => str "None"

/-! ### json.dumps -/

/-- Escaping of one character inside a JSON string literal, as `json.dumps`
performs it on printable-ASCII input: only `"` and `\` are escaped. -/
def escChar (c : Char) : Str :=
  if c = '"' ∨ c = '\\' then ['\\', c] else [c]

def escStr : Str → Str
  | [] => []
  | c :: r => escChar c ++ escStr r

def jvalDump : JVal → Str
  | .jstr s => ['"'] ++ escStr s ++ ['"']
  | .jint n => (toString n).data
  | .jbool b => if b then str "true" else str "false"
  | .jnull => str "null"

/-- Pair list of a dumped object, with Python's default separators
`", "` and `": "`, up to and including the closing brace. -/
def jsonDumpsPairs : JObj → Str
  | [] => ['\x7d']
  | [(k, v)] => ['"'] ++ escStr k ++ ['"', ':', ' '] ++ jvalDump v ++ ['\x7d']
  | (k, v) :: rest =>
      ['"'] ++ escStr k ++ ['"', ':', ' '] ++ jvalDump v ++ [',', ' '] ++ jsonDumpsPairs rest

/-- Model of Python `json.dumps` on a flat object. -/
def jsonDumps (o : JObj) : Str := '\x7b' :: jsonDumpsPairs o

/-! ### json.loads -/

def isWsChar (c : Char) : Bool := c = ' ' || c = '\n' || c = '\t' || c = '\r'

def skipWs : Str → Str
  | [] => []
  | c :: r => if isWsChar c then skipWs r else c :: r

/-- JSON string escape decoding (`\uXXXX` is outside the modelled grammar). -/
def unescape (c : Char) : Option Char :=
  if c = '"' then some '"'
  else if c = '\\' then some '\\'
  else if c = '/' then some '/'
  else if c = 'n' then some '\n'
  else if c = 't' then some '\t'
  else if c = 'r' then some '\r'
  else if c = 'b' then some (Char.ofNat 8)
  else if c = 'f' then some (Char.ofNat 12)
  else none

/-- Parse the body of a JSON string literal (the opening quote has already
been consumed); returns the decoded text and the rest of the input. -/
def parseStr : Str → Option (Str × Str)
  | [] => none
  | c :: r =>
    if c = '"' then some ([], r)
    else if c = '\\' then
      match r with
      | [] => none
      | e :: r2 =>
        match unescape e with
        | none => none
        | some u => (parseStr r2).map (fun p => (u :: p.1, p.2))
    else (parseStr r).map (fun p => (c :: p.1, p.2))

/-- Accumulate decimal digits. -/
def parseNatDigits : Str → Nat → Nat × Str
  | [], acc => (acc, [])
  | c :: r, acc =>
    if c.isDigit then parseNatDigits r (acc * 10 + (c.toNat - 48)) else (acc, c :: r)

/-- Parse one scalar JSON value. -/
def parseVal (s : Str) : Option (JVal × Str) :=
  match s with
  | [] => none
  | c :: r =>
    if c = '"' then (parseStr r).map (fun p => (.jstr p.1, p.2))
    else if c = 't' then
      if r.take 3 = str "rue" then some (.jbool true, r.drop 3) else none
    else if c = 'f' then
      if r.take 4 = str "alse" then some (.jbool false, r.drop 4) else none
    else if c = 'n' then
      if r.take 3 = str "ull" then some (.jnull, r.drop 3) else none
    else if c = '-' then
      match r with
      | [] => none
      | d :: r2 =>
        if d.isDigit then
          let p := parseNatDigits r2 (d.toNat - 48)
          some (.jint (-(p.1 : Int)), p.2)
        else none
    else if c.isDigit then
      let p := parseNatDigits r (c.toNat - 48)
      some (.jint (p.1 : Int), p.2)
    else none

/-- Continuation after one `key: value` pair has been read: either a comma
and further pairs (through `recur`), or the closing brace. -/
def pairsCont (recur : Str → Option (JObj × Str)) (k : Str) (v : JVal) (r3 : Str) :
    Option (JObj × Str) :=
  match skipWs r3 with
  | [] => none
  | c3 :: r4 =>
    if c3 = ',' then (recur (skipWs r4)).map (fun p => ((k, v) :: p.1, p.2))
    else if c3 = '\x7d' then some ([(k, v)], r4)
    else none

/-- Parse one `key: value` pair and continue with `pairsCont`. -/
def pairKV (recur : Str → Option (JObj × Str)) (s : Str) : Option (JObj × Str) :=
  match s with
  | [] => none
  | c :: r =>
    if c = '"' then
      match parseStr r with
      | none => none
      | some (k, r1) =>
        match skipWs r1 with
        | [] => none
        | c2 :: r2 =>
          if c2 = ':' then
            match parseVal (skipWs r2) with
            | none => none
            | some (v, r3) => pairsCont recur k v r3
          else none
    else none

/-- Fuelled parser for the non-empty pair list of an object. -/
def parsePairs : Nat → Str → Option (JObj × Str)
  | 0, _ => none
  | fuel + 1, s => pairKV (parsePairs fuel) s

/-- Parse a JSON object from the head of the input. -/
def parseObj (s : Str) : Option (JObj × Str) :=
  match skipWs s with
  | [] => none
  | c :: r =>
    if c = '\x7b' then
      match skipWs r with
      | [] => none
      | c2 :: r2 =>
        if c2 = '\x7d' then some ([], r2)
        else parsePairs ((c2 :: r2).length + 1) (c2 :: r2)
    else none

/-- Model of Python `json.loads` on the grammar this program exchanges (a
single flat object; the whole input must be consumed, as `json.loads` raises
on trailing data). -/
def jsonLoads (s : Str) : Option JObj :=
  match parseObj s with
  | some (o, rest) => if skipWs rest = [] then some o else none
  | none => none

/-! ## Errors

The reverse script's own error class is `XLSXParseError`; `json.loads` can
raise `json.JSONDecodeError` and dictionary access can raise `KeyError`
(library exceptions, modelled by kind only). -/

inductive PyErr where
  | xlsxParse (msg : Str)
  | jsonDecode
  | keyError (k : Str)
deriving DecidableEq

def exOk {α : Type} : Except PyErr α → Bool
  | .ok _ => true
  | .error _ => false

/-- Python `metadata[k]` on a parsed JSON object: the last binding of a
duplicated key wins (dict construction order), a missing key raises
`KeyError`. -/
def dictGet (o : JObj) (k : Str) : Except PyErr JVal :=
  match o.reverse.lookup k with
  | some v => .ok v
  | none => .error (.keyError k)

/-! ## Workbook data model (openpyxl boundary) -/

structure Cell where
  value : Option Value
  comment : Option Str
deriving DecidableEq

def emptyCell : Cell := { value := none, comment := none }

structure Sheet where
  title : Str
  cells : List (List Cell)
deriving DecidableEq

structure Workbook where
  sheets : List Sheet
  description : Option Str
deriving DecidableEq

/-- `sheet.cell(row=r, column=c)` (1-based): the stored cell, or an empty
cell for coordinates outside the stored grid. -/
def cellAt (s : Sheet) (r c : Nat) : Cell :=
  (s.cells.getD (r - 1) []).getD (c - 1) emptyCell

/-! ## Reverse mapper: xlsx_to_sql.py -/

/-- The literal tag `COMMENT_PREFIX` of `xlsx_to_sql.py`, identical to
`AUTOGEN_PREFIX` of `sql_to_xlsx.py`. -/
def autogenTag : Str := str "AUTOGENERATED, DO NOT EDIT!\n"

/-- `DEFAULT_METADATA` of `xlsx_to_sql.py`, used for header cells with no
comment. -/
def DEFAULT_METADATA : JObj :=
  [(str "type", .jstr (str "VARCHAR(255)")),
   (str "not_null", .jbool false),
   (str "pk", .jint 0)]

/-- Decode one comment text: slice off the first `len(COMMENT_PREFIX)`
characters, raise `XLSXParseError` (with the raw text in the message) if the
slice differs from the tag, then `json.loads` the remainder. -/
def decodeComment (text : Str) : Except PyErr JObj :=
  if text.take autogenTag.length = autogenTag then
    match jsonLoads (text.drop autogenTag.length) with
    | some o => .ok o
    | none => .error .jsonDecode
  else
    .error (.xlsxParse (str "Comment verification failed: '" ++ text ++ str "'"))

/-- Metadata of one header cell: decode its comment, or fall back to
`DEFAULT_METADATA` when there is none. -/
def decodeCellMeta (c : Cell) : Except PyErr JObj :=
  match c.comment with
  | some t => decodeComment t
  | none => .ok DEFAULT_METADATA

/-- The header loop `while cell.value:` collects cells of row 1 left to
right until the first cell with a falsy value; cells past the stored width
read as empty and stop the loop, so this is `takeWhile` on the stored row. -/
def headerCells : List Cell → List Cell
  | [] => []
  | c :: r => if truthyV c.value then c :: headerCells r else []

def headerRow (s : Sheet) : List Cell := headerCells (s.cells.headD [])

/-- Detected field names (`fields` in the source): the raw cell values. -/
def headerFields (s : Sheet) : List Value :=
  (headerRow s).map (fun c => c.value.getD (.vstr []))

/-- Detected field metadata (`field_metadata` in the source).  The source
decodes each cell inside the collection loop; the first failing decode
aborts, which `mapM` reproduces. -/
def headerMetas (s : Sheet) : Except PyErr (List JObj) :=
  (headerRow s).mapM decodeCellMeta

/-- One iteration of the column-emission loop: reads `metadata["pk"]`,
updates/validates `primary_key_field`, then emits
`\t<name> <type>[ NOT NULL],\n` with the name double-quoted unless it equals
the primary-key field. -/
def fieldLine (title : Str) (pkf : Option Value) (fm : Value × JObj) :
    Except PyErr (Str × Option Value) :=
  match dictGet fm.2 (str "pk") with
  | .error e => .error e
  | .ok pkv =>
    match
      (if pkv.jtruthy then
        match pkf with
        | some _ =>
            Except.error (.xlsxParse
              (str "Table " ++ title ++ str ": multiple primary key fields detected!"))
        | none => Except.ok (some fm.1)
      else Except.ok pkf) with
    | .error e => .error e
    | .ok pkf' =>
      let namePart :=
        if optPyEq pkf' fm.1 then ['\t'] ++ fm.1.pystr
        else ['\t', '"'] ++ fm.1.pystr ++ ['"']
      match dictGet fm.2 (str "type") with
      | .error e => .error e
      | .ok tv =>
        match dictGet fm.2 (str "not_null") with
        | .error e => .error e
        | .ok nnv =>
          .ok (namePart ++ [' '] ++ tv.jpystr ++
            (if nnv.jtruthy then str " NOT NULL" else []) ++ str ",\n", pkf')

/-- The column-emission loop over `(field_name, metadata)` pairs, threading
`primary_key_field`. -/
def emitFields (title : Str) (pkf : Option Value) :
    List (Value × JObj) → Except PyErr (Str × Option Value)
  | [] => .ok ([], pkf)
  | fm :: rest =>
    match fieldLine title pkf fm with
    | .error e => .error e
    | .ok (line, pkf') =>
      match emitFields title pkf' rest with
      | .error e => .error e
      | .ok (restStr, pkfFinal) => .ok (line ++ restStr, pkfFinal)

/-- The `CREATE TABLE` block for one sheet, including the mandatory
`PRIMARY KEY` line (`XLSXParseError` when no primary-key field was seen). -/
def createTable (s : Sheet) (fields : List Value) (metas : List JObj) :
    Except PyErr Str :=
  match emitFields s.title none (fields.zip metas) with
  | .error e => .error e
  | .ok (body, pkf) =>
    match pkf with
    | some f =>
        .ok (str "CREATE TABLE \"" ++ s.title ++ str "\" (\n" ++ body ++
          str "  PRIMARY KEY (" ++ f.pystr ++ str ")\n" ++ str ");\n")
    | none =>
        .error (.xlsxParse (str "Table " ++ s.title ++ str ": no primary key field detected!"))

/-- Value of one inserted cell: `None` becomes `''`, then `str()`.  -/
def cellToStr (v : Option Value) : Str :=
  match v with
  | none => Value.pystr (.vstr [])
  | some x => x.pystr

/-- Comma-join the stringified values, each wrapped in single quotes.  After
`value = str(value)` every value is a string, so the source's
`isinstance(value, str)` test always takes the quoting branch; no escaping
of embedded quotes is performed. -/
def joinValues : List Str → Str
  | [] => []
  | [v] => ['\''] ++ v ++ ['\'']
  | v :: rest => ['\''] ++ v ++ ['\''] ++ [','] ++ joinValues rest

/-- The values of the row at `sheet.cell(row=rowIdx+1, column=j+1)` for `j`
below the number of detected fields — exactly the source's inner loop. -/
def insertValues (s : Sheet) (rowIdx : Nat) (nFields : Nat) : List Str :=
  (List.range nFields).map (fun j => cellToStr (cellAt s (rowIdx + 1) (j + 1)).value)

/-- One emitted `INSERT INTO` statement for the data row with 0-based sheet
row index `rowIdx`. -/
def insertLine (s : Sheet) (fields : List Value) (rowIdx : Nat) : Str :=
  str "INSERT INTO \"" ++ s.title ++ str "\" VALUES(" ++
    joinValues (insertValues s rowIdx fields.length) ++ str ");\n"

/-- The record loop over `enumerate(sheet.rows)` from index 1 on (index 0 is
the header row): rows whose cells are all falsy are skipped, other rows emit
one `INSERT`. -/
def insertChunksAux (s : Sheet) (fields : List Value) : Nat → List (List Cell) → List Str
  | _, [] => []
  | i, row :: rest =>
    (if row.any (fun c => truthyV c.value) then [insertLine s fields i] else []) ++
      insertChunksAux s fields (i + 1) rest

def insertChunks (s : Sheet) (fields : List Value) : List Str :=
  insertChunksAux s fields 1 (s.cells.drop 1)

def strJoin : List Str → Str
  | [] => []
  | s :: rest => s ++ strJoin rest

/-- Everything `xlsx_to_sql.py` appends to the script for one worksheet. -/
def processSheet (s : Sheet) : Except PyErr Str :=
  match headerMetas s with
  | .error e => .error e
  | .ok metas =>
    match createTable s (headerFields s) metas with
    | .error e => .error e
    | .ok ct => .ok (ct ++ strJoin (insertChunks s (headerFields s)))

/-- The worksheet loop, accumulating the script text (an uncaught exception
aborts the run before the output file is written). -/
def sheetsLoop : Str → List Sheet → Except PyErr Str
  | acc, [] => .ok acc
  | acc, s :: rest =>
    match processSheet s with
    | .error e => .error e
    | .ok t => sheetsLoop (acc ++ t) rest

/-- The whole reverse conversion: `BEGIN TRANSACTION;` + per-sheet output +
`COMMIT;`.  The workbook description is never consulted. -/
def xlsx_to_sql (wb : Workbook) : Except PyErr Str :=
  match sheetsLoop (str "BEGIN TRANSACTION;\n") wb.sheets with
  | .error e => .error e
  | .ok body => .ok (body ++ str "COMMIT;\n")

/-! ## Forward mapper: sql_to_xlsx.py

The script runs against a fresh in-memory sqlite database; the state the
forward mapper then reads is modelled directly: the `sqlite_master` rows
(kind and name, in catalog order) and, per table, the `PRAGMA table_info`
column records (`name, type, notnull, pk`) and the `SELECT *` rows. -/

structure ColInfo where
  name : Str
  type : Str
  notnull : Nat
  pk : Nat
deriving DecidableEq

/-- One row of `sqlite_master` together with what the two follow-up queries
(`PRAGMA table_info`, `SELECT *`) would return for it. -/
structure DbObject where
  otype : Str
  name : Str
  info : List ColInfo
  rows : List (List (Option Value))
deriving DecidableEq

abbrev Database := List DbObject

/-- The query `SELECT name FROM sqlite_master WHERE type='table'`: every
catalog row whose kind is `table`, in catalog order.  (sqlite stores its
internal tables, e.g. `sqlite_sequence`, in `sqlite_master` with
`type='table'` as well, so they pass this filter.) -/
def tablesOf (db : Database) : List DbObject :=
  db.filter (fun o => o.otype == str "table")

/-- The reserved-name convention for sqlite internal schema objects. -/
def isInternalSqliteName (n : Str) : Bool :=
  (str "sqlite_").isPrefixOf n

/-- The metadata dict built for one column:
`{"type": field[2], "not_null": bool(field[3]), "pk": int(field[5])}`. -/
def colMeta (c : ColInfo) : JObj :=
  [(str "type", .jstr c.type),
   (str "not_null", .jbool (c.notnull != 0)),
   (str "pk", .jint c.pk)]

/-- The header cell written for one column: the name as the value, the
tagged JSON dump of the metadata as the comment. -/
def mkHeaderCell (c : ColInfo) : Cell :=
  { value := some (.vstr c.name), comment := some (autogenTag ++ jsonDumps (colMeta c)) }

/-- One data row written below the header (`cell.value = col`; a `None`
leaves the cell empty). -/
def mkDataRow (r : List (Option Value)) : List Cell :=
  r.map (fun v => { value := v, comment := none })

/-- The worksheet written for one table, under its final title. -/
def mkSheet (title : Str) (t : DbObject) : Sheet :=
  { title := title, cells := t.info.map mkHeaderCell :: t.rows.map mkDataRow }

def natStr (n : Nat) : Str := (toString n).data

/-- Model of openpyxl's duplicate-title avoidance: append the smallest
numeric suffix that makes the requested title unused. -/
def freshTitle (existing : List Str) (base : Str) : Nat → Nat → Str
  | 0, n => base ++ natStr n
  | fuel + 1, n =>
    if (base ++ natStr n) ∈ existing then freshTitle existing base fuel (n + 1)
    else base ++ natStr n

/-- Title finally assigned by `workbook.create_sheet(requested)`. -/
def assignTitle (existing : List Str) (req : Str) : Str :=
  if req ∈ existing then freshTitle existing req (existing.length + 1) 1 else req

/-- The table loop: request the first 29 characters of the table name as the
sheet title, record the finally-assigned title against the full table name,
and write the sheet. -/
def sqlToXlsxAux : List DbObject → List Sheet → List (Str × Str) → List Sheet × List (Str × Str)
  | [], sheets, names => (sheets, names)
  | t :: rest, sheets, names =>
    let req := t.name.take 29
    let title := assignTitle (sheets.map (·.title)) req
    sqlToXlsxAux rest (sheets ++ [mkSheet title t]) (names ++ [(title, t.name)])

/-- Dump of one `"display": "logical"` pair of the workbook metadata. -/
def dumpStrPair (p : Str × Str) : Str :=
  ['"'] ++ escStr p.1 ++ ['"', ':', ' ', '"'] ++ escStr p.2 ++ ['"']

def dumpStrObjPairs : List (Str × Str) → Str
  | [] => ['\x7d']
  | [p] => dumpStrPair p ++ ['\x7d']
  | p :: rest => dumpStrPair p ++ [',', ' '] ++ dumpStrObjPairs rest

/-- `json.dumps({"table_names": {display: logical, ...}})` of the workbook
metadata (the one nested object the forward mapper writes). -/
def dumpTableNames (names : List (Str × Str)) : Str :=
  str "\x7b\"table_names\": " ++ ('\x7b' :: dumpStrObjPairs names) ++ ['\x7d']

/-- The sheet-title/table-name links recorded while converting `db`. -/
def tableNamesOf (db : Database) : List (Str × Str) :=
  (sqlToXlsxAux (tablesOf db) [] []).2

/-- The whole forward conversion: one sheet per enumerated table, and the
tagged workbook metadata in the document description. -/
def sql_to_xlsx (db : Database) : Workbook :=
  { sheets := (sqlToXlsxAux (tablesOf db) [] []).1,
    description := some (autogenTag ++ dumpTableNames (tableNamesOf db)) }

/-! ## Spec-side definitions

These follow the words of the specification/claims, for comparison with the
transcribed code above. -/

/-- Modelled from the spec: a cell is "empty or absent" when it holds no
value or the empty string (claim C3's wording for skipped rows). -/
def rowEmptyOrAbsent (row : List Cell) : Bool :=
  row.all (fun c => c.value == none || c.value == some (.vstr []))

/-- Modelled from the spec: the `CREATE TABLE` column line claim C1 expects
to be reproduced — same name, type, not-null flag; the primary-key column
unquoted, others double-quoted. -/
def expectedColLine (c : ColInfo) : Str :=
  ['\t'] ++ (if c.pk ≠ 0 then c.name else ['"'] ++ c.name ++ ['"']) ++ [' '] ++ c.type ++
    (if c.notnull ≠ 0 then str " NOT NULL" else []) ++ str ",\n"

def expectedPkName (t : DbObject) : Str :=
  match t.info.find? (fun c => c.pk != 0) with
  | some c => c.name
  | none => []

/-- Modelled from the spec: the text claim C1 expects the reverse of the
forward conversion to produce for one table — every column definition and
every row's values (coerced to strings), under the (possibly truncated)
sheet title. -/
def expectedTable (t : DbObject) : Str :=
  str "CREATE TABLE \"" ++ t.name.take 29 ++ str "\" (\n" ++
    strJoin (t.info.map expectedColLine) ++
    str "  PRIMARY KEY (" ++ expectedPkName t ++ str ")\n" ++ str ");\n" ++
    strJoin (t.rows.map (fun r =>
      str "INSERT INTO \"" ++ t.name.take 29 ++ str "\" VALUES(" ++
        joinValues (r.map cellToStr) ++ str ");\n"))

/-- Modelled from the spec: the whole script claim C1 expects
`reverse(forward(db))` to reproduce. -/
def expectedScript (db : Database) : Str :=
  str "BEGIN TRANSACTION;\n" ++ strJoin ((tablesOf db).map expectedTable) ++ str "COMMIT;\n"

/-- Printable-ASCII text: the domain on which the modelled `json.dumps`
escaping is byte-exact. -/
def asciiOk (s : Str) : Prop := ∀ c ∈ s, 32 ≤ c.toNat ∧ c.toNat < 127

instance (s : Str) : Decidable (asciiOk s) := by
  unfold asciiOk; infer_instance

/-- Conditions under which one table survives the round trip: exactly one
primary-key column (pragma marks it `pk = 1`, the others `0`), nonempty and
pairwise-distinct column names, printable-ASCII type strings, and rows of
the right arity each containing at least one truthy value. -/
def goodTable (t : DbObject) : Prop :=
  t.info.countP (fun c => c.pk != 0) = 1 ∧
  (∀ c ∈ t.info, c.pk ≤ 1) ∧
  (∀ c ∈ t.info, c.name ≠ []) ∧
  (t.info.map (·.name)).Nodup ∧
  (∀ c ∈ t.info, asciiOk c.type) ∧
  (∀ r ∈ t.rows, r.length = t.info.length ∧ r.any truthyV = true)

instance (t : DbObject) : Decidable (goodTable t) := by
  unfold goodTable; infer_instance

/-! ## Derived predicates used in the claim statements -/

/-- The `INSERT` emitted for one row, expressed on the row's own cells:
exactly the first `nFields` cells are used, missing cells reading as empty. -/
def rowInsertLine (title : Str) (nFields : Nat) (row : List Cell) : Str :=
  str "INSERT INTO \"" ++ title ++ str "\" VALUES(" ++
    joinValues ((List.range nFields).map (fun j => cellToStr (row.getD j emptyCell).value)) ++
    str ");\n"

/-- Whether `metadata["pk"]` exists and is truthy. -/
def metaPkTruthy (m : JObj) : Bool :=
  match dictGet m (str "pk") with
  | .ok v => v.jtruthy
  | .error _ => false

/-- Number of detected fields flagged as primary key. -/
def pkCount (metas : List JObj) : Nat := metas.countP metaPkTruthy

/-- Whether a metadata object carries all three keys the emission loop
reads. -/
def metaKeysOk (m : JObj) : Bool :=
  exOk (dictGet m (str "pk")) && exOk (dictGet m (str "type")) &&
    exOk (dictGet m (str "not_null"))

/-- Whether a result failed with the reverse script's own error class
(`XLSXParseError`), as opposed to a library exception. -/
def isXlsxParse {α : Type} : Except PyErr α → Bool
  | .error (.xlsxParse _) => true
  | _ => false

/-! ## Concrete instances used by witnesses and counterexamples -/

/-- Header cell with name `nm` and comment `cm`. -/
def hcell (nm : String) (cm : Str) : Cell :=
  { value := some (.vstr (str nm)), comment := some cm }

/-- Data cell holding `v`. -/
def vcell (v : Value) : Cell := { value := some v, comment := none }

/-- A well-formed primary-key column comment, as the forward mapper writes
it. -/
def pkComment : Str :=
  autogenTag ++ str "\x7b\"type\": \"INTEGER\", \"not_null\": false, \"pk\": 1\x7d"

/-- A well-formed non-key column comment. -/
def npkComment : Str :=
  autogenTag ++ str "\x7b\"type\": \"TEXT\", \"not_null\": false, \"pk\": 0\x7d"

/-- One single-primary-key table whose only row holds the integer `0` —
every cell of that row is Python-falsy. -/
def c1ExDb : Database :=
  [{ otype := str "table", name := str "t",
     info := [{ name := str "a", type := str "INTEGER", notnull := 0, pk := 1 }],
     rows := [[some (.vint 0)]] }]

/-- A table that round-trips: one text column, one truthy row. -/
def c1WitDb : Database :=
  [{ otype := str "table", name := str "w",
     info := [{ name := str "a", type := str "TEXT", notnull := 0, pk := 1 }],
     rows := [[some (.vstr (str "x"))]] }]

/-- Sheets with zero, one and two primary-key-flagged header fields. -/
def c2ZeroSheet : Sheet := { title := str "z", cells := [[hcell "a" npkComment]] }

def c2OneSheet : Sheet := { title := str "T", cells := [[hcell "a" pkComment]] }

def c2TwoSheet : Sheet :=
  { title := str "d", cells := [[hcell "a" pkComment, hcell "b" pkComment]] }

/-- A sheet whose middle data row holds the single integer `0`: not an
empty cell, but Python-falsy. -/
def c3ExSheet : Sheet :=
  { title := str "t",
    cells := [[hcell "a" pkComment],
              [vcell (.vstr (str "x"))],
              [vcell (.vint 0)],
              [vcell (.vstr (str "y"))]] }

/-- A catalog holding a user table, the internal `sqlite_sequence` table
(present in `sqlite_master` with `type='table'` whenever AUTOINCREMENT is
used) and an index. -/
def c4SeqTable : DbObject :=
  { otype := str "table", name := str "sqlite_sequence",
    info := [{ name := str "name", type := str "", notnull := 0, pk := 0 }],
    rows := [] }

def c4ExDb : Database :=
  [{ otype := str "table", name := str "t1",
     info := [{ name := str "a", type := str "INTEGER", notnull := 0, pk := 1 }],
     rows := [] },
   c4SeqTable,
   { otype := str "index", name := str "i1", info := [], rows := [] }]

/-- An annotation with the right tag but malformed JSON after it. -/
def c5BadJsonComment : Str := autogenTag ++ str "\x7bnope"

/-- A valid-tag, valid-JSON annotation lacking the required keys. -/
def c5MissingKeyComment : Str := autogenTag ++ str "\x7b\"a\": 1\x7d"

def c5MissingKeySheet : Sheet :=
  { title := str "m", cells := [[hcell "a" c5MissingKeyComment]] }

/-- A table whose name is 35 characters long. -/
def c6WitTable : DbObject :=
  { otype := str "table", name := str "abcdefghijklmnopqrstuvwxyz123456789",
    info := [{ name := str "a", type := str "INTEGER", notnull := 0, pk := 1 }],
    rows := [] }

def c6WitDb : Database := [c6WitTable]

/-- A workbook around `c2OneSheet`, and the script the reverse mapper
produces for it. -/
def c8WitWb : Workbook := { sheets := [c2OneSheet], description := none }

def c8WitOut : Str :=
  str "BEGIN TRANSACTION;\nCREATE TABLE \"T\" (\n\ta INTEGER,\n  PRIMARY KEY (a)\n);\nCOMMIT;\n"

/-! ## Parser lemmas: `jsonLoads` recovers what `jsonDumps` wrote -/

theorem skipWs_nonws (c : Char) (r : Str) (h : isWsChar c = false) :
    skipWs (c :: r) = c :: r := by
  simp [skipWs, h]

theorem parseStr_cons (c : Char) (r : Str) :
    parseStr (c :: r) =
      (if c = '"' then some ([], r)
      else if c = '\\' then
        match r with
        | [] => none
        | e :: r2 =>
          match unescape e with
          | none => none
          | some u => (parseStr r2).map (fun p => (u :: p.1, p.2))
      else (parseStr r).map (fun p => (c :: p.1, p.2))) := by
  conv_lhs => rw [parseStr.eq_def]
  rfl

theorem parseStr_quote (r : Str) : parseStr ('"' :: r) = some ([], r) := by
  rw [parseStr_cons, if_pos rfl]

theorem parseStr_plain (c : Char) (r : Str) (h1 : c ≠ '"') (h2 : c ≠ '\\') :
    parseStr (c :: r) = (parseStr r).map (fun p => (c :: p.1, p.2)) := by
  rw [parseStr_cons, if_neg h1, if_neg h2]

theorem parseStr_esc (e : Char) (r : Str) :
    parseStr ('\\' :: e :: r) =
      (match unescape e with
      | none => none
      | some u => (parseStr r).map (fun p => (u :: p.1, p.2))) := by
  rw [parseStr_cons, if_neg (by decide), if_pos rfl]

/-- Round trip of the string escaper through the string parser. -/
theorem parseStr_escStr (t : Str) (rest : Str) :
    parseStr (escStr t ++ '"' :: rest) = some (t, rest) := by
  induction t with
  | nil => simpa using parseStr_quote rest
  | cons c tl ih =>
    by_cases hc : c = '"' ∨ c = '\\'
    · have he : escStr (c :: tl) = '\\' :: c :: escStr tl := by
        simp [escStr, escChar, hc]
      have hu : unescape c = some c := by
        rcases hc with h | h <;> simp [unescape, h]
      rw [he, List.cons_append, List.cons_append, parseStr_esc, hu, ih]
      rfl
    · push_neg at hc
      have he : escStr (c :: tl) = c :: escStr tl := by
        simp [escStr, escChar, hc.1, hc.2]
      rw [he, List.cons_append, parseStr_plain c _ hc.1 hc.2, ih]
      rfl

theorem parseNatDigits_nondigit (tail : Str) (acc : Nat)
    (h : ∀ d ∈ tail.head?, d.isDigit = false) :
    parseNatDigits tail acc = (acc, tail) := by
  cases tail with
  | nil => rfl
  | cons d r =>
    have hd : d.isDigit = false := h d rfl
    simp [parseNatDigits, hd]

/-- Values `jsonDumps` can emit whose digits the modelled parser is proved
to recover (the integers this program writes are the 0/1 of the pragma
flags). -/
def valOk : JVal → Prop
  | .jint n => n = 0 ∨ n = 1
  | _ => True

instance (v : JVal) : Decidable (valOk v) := by
  cases v <;> simp [valOk] <;> infer_instance

/-- A dumped scalar followed by a non-digit is parsed back exactly. -/
theorem parseVal_dump (v : JVal) (tail : Str) (hv : valOk v)
    (htail : ∀ d ∈ tail.head?, d.isDigit = false) :
    parseVal (jvalDump v ++ tail) = some (v, tail) := by
  cases v with
  | jstr s =>
    have : jvalDump (.jstr s) ++ tail = '"' :: (escStr s ++ '"' :: tail) := by
      simp [jvalDump]
    rw [this]
    simp [parseVal, parseStr_escStr]
  | jint n =>
    rcases hv with h | h <;> subst h
    · have h0 : jvalDump (JVal.jint 0) = ['0'] := by decide
      rw [h0, List.singleton_append]
      simp [parseVal, parseNatDigits_nondigit tail _ htail]
    · have h1 : jvalDump (JVal.jint 1) = ['1'] := by decide
      rw [h1, List.singleton_append]
      simp [parseVal, parseNatDigits_nondigit tail _ htail]
  | jbool b =>
    cases b <;>
      simp [jvalDump, parseVal, str, List.take_left', List.drop_left']
  | jnull =>
    simp [jvalDump, parseVal, str, List.take_left', List.drop_left']

theorem skipWs_colon (r : Str) : skipWs (':' :: r) = ':' :: r := skipWs_nonws _ _ (by decide)

theorem skipWs_comma (r : Str) : skipWs (',' :: r) = ',' :: r := skipWs_nonws _ _ (by decide)

theorem skipWs_rbrace (r : Str) : skipWs ('\x7d' :: r) = '\x7d' :: r := skipWs_nonws _ _ (by decide)

theorem skipWs_quote (r : Str) : skipWs ('"' :: r) = '"' :: r := skipWs_nonws _ _ (by decide)

theorem skipWs_space (r : Str) : skipWs (' ' :: r) = skipWs r := by
  simp [skipWs, isWsChar]

theorem skipWs_nil : skipWs [] = [] := rfl

theorem skipWs_jvalDump (v : JVal) (hv : valOk v) (tail : Str) :
    skipWs (jvalDump v ++ tail) = jvalDump v ++ tail := by
  cases v with
  | jstr s => simp [jvalDump, skipWs_quote]
  | jint n =>
    rcases hv with h | h <;> subst h
    · have h0 : jvalDump (JVal.jint 0) = ['0'] := by decide
      rw [h0, List.singleton_append]; exact skipWs_nonws _ _ (by decide)
    · have h1 : jvalDump (JVal.jint 1) = ['1'] := by decide
      rw [h1, List.singleton_append]; exact skipWs_nonws _ _ (by decide)
  | jbool b =>
    cases b <;> simp [jvalDump, str] <;> exact skipWs_nonws _ _ (by decide)
  | jnull =>
    simp [jvalDump, str]; exact skipWs_nonws _ _ (by decide)

theorem head_nondigit_cons (c : Char) (r : Str) (h : c.isDigit = false) :
    ∀ d ∈ (c :: r : Str).head?, d.isDigit = false := by
  intro d hd
  simp [List.head?] at hd
  subst hd
  exact h

/-- One non-final dumped pair parses back and hands the rest (after the
separator `", "`) to the continuation. -/
theorem pairKV_dump_cons (recur : Str → Option (JObj × Str)) (key : Str) (v : JVal)
    (hv : valOk v) (rest : Str) (hrest : skipWs rest = rest)
    (hd : ∀ d ∈ (',' :: ' ' :: rest : Str).head?, d.isDigit = false) :
    pairKV recur ('"' :: (escStr key ++ '"' :: ':' :: ' ' :: (jvalDump v ++ ',' :: ' ' :: rest))) =
      (recur rest).map (fun p => ((key, v) :: p.1, p.2)) := by
  simp only [pairKV, if_pos rfl, parseStr_escStr, skipWs_colon, skipWs_space,
    skipWs_jvalDump v hv, parseVal_dump v _ hv hd, pairsCont, skipWs_comma]
  simp [hrest]

/-- The final dumped pair (followed by the closing brace) parses back. -/
theorem pairKV_dump_last (recur : Str → Option (JObj × Str)) (key : Str) (v : JVal)
    (hv : valOk v) :
    pairKV recur ('"' :: (escStr key ++ '"' :: ':' :: ' ' :: (jvalDump v ++ ['\x7d']))) =
      some ([(key, v)], []) := by
  simp only [pairKV, if_pos rfl, parseStr_escStr, skipWs_colon, skipWs_space,
    skipWs_jvalDump v hv,
    parseVal_dump v ['\x7d'] hv (head_nondigit_cons '\x7d' [] (by decide)),
    pairsCont, skipWs_rbrace]
  simp

theorem parsePairs_succ (f : Nat) (s : Str) :
    parsePairs (f + 1) s = pairKV (parsePairs f) s := rfl

theorem jsonDumpsPairs_last (key : Str) (v : JVal) :
    jsonDumpsPairs [(key, v)] =
      '"' :: (escStr key ++ '"' :: ':' :: ' ' :: (jvalDump v ++ ['\x7d'])) := by
  simp [jsonDumpsPairs]

theorem jsonDumpsPairs_cons (key : Str) (v : JVal) (q : Str × JVal) (rest : JObj) :
    jsonDumpsPairs ((key, v) :: q :: rest) =
      '"' :: (escStr key ++ '"' :: ':' :: ' ' :: (jvalDump v ++ ',' :: ' ' ::
        jsonDumpsPairs (q :: rest))) := by
  simp [jsonDumpsPairs]

theorem jsonDumpsPairs_shape (p : Str × JVal) (rest : JObj) :
    ∃ r, jsonDumpsPairs (p :: rest) = '"' :: r := by
  obtain ⟨key, v⟩ := p
  cases rest with
  | nil => exact ⟨_, jsonDumpsPairs_last key v⟩
  | cons q rest2 => exact ⟨_, jsonDumpsPairs_cons key v q rest2⟩

theorem parsePairs_dumps (o : JObj) (ho : o ≠ []) (hv : ∀ p ∈ o, valOk p.2) :
    ∀ k, parsePairs (o.length + k + 1) (jsonDumpsPairs o) = some (o, []) := by
  induction o with
  | nil => exact absurd rfl ho
  | cons p rest ih =>
    obtain ⟨key, v⟩ := p
    have hvp : valOk v := hv (key, v) (List.mem_cons_self _ _)
    intro k
    cases rest with
    | nil =>
      rw [jsonDumpsPairs_last, parsePairs_succ, pairKV_dump_last _ key v hvp]
    | cons q rest2 =>
      obtain ⟨r, hr⟩ := jsonDumpsPairs_shape q rest2
      have hskip : skipWs (jsonDumpsPairs (q :: rest2)) = jsonDumpsPairs (q :: rest2) := by
        rw [hr]; exact skipWs_quote r
      have hd : ∀ d ∈ (',' :: ' ' :: jsonDumpsPairs (q :: rest2) : Str).head?,
          d.isDigit = false := head_nondigit_cons ',' _ (by decide)
      rw [jsonDumpsPairs_cons, parsePairs_succ,
        pairKV_dump_cons _ key v hvp _ hskip hd]
      have e : ((key, v) :: q :: rest2 : JObj).length + k =
          (q :: rest2 : JObj).length + k + 1 := by
        simp only [List.length_cons]; omega
      rw [e, ih (by simp) (fun p hp => hv p (List.mem_cons_of_mem _ hp)) k]
      rfl

theorem jsonDumpsPairs_length_ge (o : JObj) : o.length ≤ (jsonDumpsPairs o).length := by
  induction o with
  | nil => simp [jsonDumpsPairs]
  | cons p rest ih =>
    obtain ⟨key, v⟩ := p
    cases rest with
    | nil => simp [jsonDumpsPairs_last]
    | cons q rest2 =>
      rw [jsonDumpsPairs_cons]
      simp only [List.length_cons, List.length_append]
      simp at ih ⊢
      omega

/-- Unfolding of `parseObj` on a brace-headed input whose body does not
immediately close. -/
theorem parseObj_lbrace (P : Str) (c2 : Char) (r2 : Str) (h : skipWs P = c2 :: r2)
    (hne : ¬ (c2 = '\x7d')) :
    parseObj ('\x7b' :: P) = parsePairs ((c2 :: r2).length + 1) (c2 :: r2) := by
  rw [parseObj.eq_def, skipWs_nonws '\x7b' P (by decide)]
  simp [h, hne]

theorem parseObj_dumps (o : JObj) (ho : o ≠ []) (hv : ∀ p ∈ o, valOk p.2) :
    parseObj (jsonDumps o) = some (o, []) := by
  obtain ⟨p, rest, hp⟩ : ∃ p rest, o = p :: rest := by
    cases o with
    | nil => exact absurd rfl ho
    | cons p rest => exact ⟨p, rest, rfl⟩
  obtain ⟨r, hr⟩ : ∃ r, jsonDumpsPairs o = '"' :: r := by
    rw [hp]; exact jsonDumpsPairs_shape p rest
  have hs : skipWs (jsonDumpsPairs o) = '"' :: r := by
    rw [hr]; exact skipWs_quote r
  rw [jsonDumps, parseObj_lbrace _ '"' r hs (by decide), ← hr]
  have hfuel : (jsonDumpsPairs o).length + 1 =
      o.length + ((jsonDumpsPairs o).length - o.length) + 1 := by
    have := jsonDumpsPairs_length_ge o
    omega
  rw [hfuel]
  exact parsePairs_dumps o ho hv _

/-- `json.loads` recovers a non-empty dumped object. -/
theorem jsonLoads_dumps (o : JObj) (ho : o ≠ []) (hv : ∀ p ∈ o, valOk p.2) :
    jsonLoads (jsonDumps o) = some o := by
  rw [jsonLoads, parseObj_dumps o ho hv]
  rfl

/-- Decoding a freshly written comment (tag plus dumped metadata) succeeds
and recovers the metadata object. -/
theorem decodeComment_dumps (o : JObj) (ho : o ≠ []) (hv : ∀ p ∈ o, valOk p.2) :
    decodeComment (autogenTag ++ jsonDumps o) = .ok o := by
  rw [decodeComment, if_pos (List.take_left autogenTag _), List.drop_left,
    jsonLoads_dumps o ho hv]

/-! ## Header detection and metadata decoding on forward-written sheets -/

theorem dictGet_colMeta_pk (c : ColInfo) :
    dictGet (colMeta c) (str "pk") = .ok (.jint c.pk) := rfl

theorem dictGet_colMeta_type (c : ColInfo) :
    dictGet (colMeta c) (str "type") = .ok (.jstr c.type) := rfl

theorem dictGet_colMeta_notnull (c : ColInfo) :
    dictGet (colMeta c) (str "not_null") = .ok (.jbool (c.notnull != 0)) := rfl

theorem headerCells_all (l : List Cell) (h : ∀ c ∈ l, truthyV c.value = true) :
    headerCells l = l := by
  induction l with
  | nil => rfl
  | cons c r ih =>
    rw [headerCells, if_pos (h c (List.mem_cons_self _ _)),
      ih (fun x hx => h x (List.mem_cons_of_mem _ hx))]

theorem headerRow_mkSheet (title : Str) (t : DbObject)
    (h : ∀ c ∈ t.info, c.name ≠ []) :
    headerRow (mkSheet title t) = t.info.map mkHeaderCell := by
  rw [headerRow]
  have : (mkSheet title t).cells.headD [] = t.info.map mkHeaderCell := rfl
  rw [this]
  apply headerCells_all
  intro c hc
  obtain ⟨col, hcol, rfl⟩ := List.mem_map.mp hc
  have : col.name ≠ [] := h col hcol
  simp [mkHeaderCell, truthyV, Value.truthy, this]

theorem headerFields_mkSheet (title : Str) (t : DbObject)
    (h : ∀ c ∈ t.info, c.name ≠ []) :
    headerFields (mkSheet title t) = t.info.map (fun c => .vstr c.name) := by
  rw [headerFields, headerRow_mkSheet title t h, List.map_map]
  rfl

theorem colMeta_valOk (c : ColInfo) (hpk : c.pk ≤ 1) : ∀ p ∈ colMeta c, valOk p.2 := by
  intro p hp
  simp only [colMeta, List.mem_cons, List.not_mem_nil, or_false] at hp
  rcases hp with h | h | h <;> subst h
  · trivial
  · trivial
  · simp only [valOk]
    omega

theorem decodeCellMeta_mkHeaderCell (c : ColInfo) (hpk : c.pk ≤ 1) :
    decodeCellMeta (mkHeaderCell c) = .ok (colMeta c) := by
  rw [decodeCellMeta]
  exact decodeComment_dumps (colMeta c) (by simp [colMeta]) (colMeta_valOk c hpk)

theorem mapM_decode_mkHeaderCell (l : List ColInfo) (hpk : ∀ c ∈ l, c.pk ≤ 1) :
    (l.map mkHeaderCell).mapM decodeCellMeta = .ok (l.map colMeta) := by
  induction l with
  | nil => rfl
  | cons c rest ih =>
    rw [List.map_cons, List.mapM_cons,
      decodeCellMeta_mkHeaderCell c (hpk c (List.mem_cons_self _ _)),
      ih (fun x hx => hpk x (List.mem_cons_of_mem _ hx))]
    rfl

theorem headerMetas_mkSheet (title : Str) (t : DbObject)
    (hn : ∀ c ∈ t.info, c.name ≠ []) (hpk : ∀ c ∈ t.info, c.pk ≤ 1) :
    headerMetas (mkSheet title t) = .ok (t.info.map colMeta) := by
  rw [headerMetas, headerRow_mkSheet title t hn]
  exact mapM_decode_mkHeaderCell t.info hpk

/-! ## The column-emission loop on decoded metadata -/

theorem fieldLine_colMeta_nonpk (title : Str) (pkf : Option Value) (c : ColInfo)
    (hpk : c.pk = 0) (hne : optPyEq pkf (.vstr c.name) = false) :
    fieldLine title pkf (.vstr c.name, colMeta c) = .ok (expectedColLine c, pkf) := by
  simp [fieldLine, dictGet_colMeta_pk, dictGet_colMeta_type, dictGet_colMeta_notnull,
    JVal.jtruthy, hpk, hne, expectedColLine, JVal.jpystr, Value.pystr]

theorem fieldLine_colMeta_pk (title : Str) (c : ColInfo) (hpk : c.pk ≠ 0) :
    fieldLine title none (.vstr c.name, colMeta c) =
      .ok (expectedColLine c, some (.vstr c.name)) := by
  simp [fieldLine, dictGet_colMeta_pk, dictGet_colMeta_type, dictGet_colMeta_notnull,
    JVal.jtruthy, hpk, optPyEq, pyEq, expectedColLine, JVal.jpystr, Value.pystr]

theorem fieldLine_colMeta_pk_dup (title : Str) (v : Value) (c : ColInfo) (hpk : c.pk ≠ 0) :
    fieldLine title (some v) (.vstr c.name, colMeta c) =
      .error (.xlsxParse
        (str "Table " ++ title ++ str ": multiple primary key fields detected!")) := by
  simp [fieldLine, dictGet_colMeta_pk, JVal.jtruthy, hpk]

theorem emitFields_append (title : Str) (pkf : Option Value) (l1 l2 : List (Value × JObj))
    (s1 : Str) (pkf1 : Option Value) (h : emitFields title pkf l1 = .ok (s1, pkf1)) :
    emitFields title pkf (l1 ++ l2) =
      (match emitFields title pkf1 l2 with
      | .error e => .error e
      | .ok (s2, pkf2) => .ok (s1 ++ s2, pkf2)) := by
  induction l1 generalizing pkf s1 with
  | nil =>
    rw [emitFields] at h
    cases h
    rw [List.nil_append]
    cases h2 : emitFields title pkf1 l2 with
    | error e => simp [h2]
    | ok p => obtain ⟨s2, pkf2⟩ := p; simp [h2]
  | cons fm rest ih =>
    rw [List.cons_append]
    rw [emitFields] at h ⊢
    cases hf : fieldLine title pkf fm with
    | error e =>
      simp only [hf] at h
      exact Except.noConfusion h
    | ok p =>
      obtain ⟨line, pkf'⟩ := p
      simp only [hf] at h ⊢
      cases hr : emitFields title pkf' rest with
      | error e =>
        simp only [hr] at h
        exact Except.noConfusion h
      | ok q =>
        obtain ⟨rs, pkfF⟩ := q
        simp only [hr, Except.ok.injEq, Prod.mk.injEq] at h
        obtain ⟨h1, h2⟩ := h
        subst h1
        subst h2
        rw [ih pkf' rs hr]
        cases h2 : emitFields title pkfF l2 with
        | error e => simp [h2]
        | ok p2 => obtain ⟨s2, pkf2⟩ := p2; simp [h2, List.append_assoc]

theorem strJoin_append (l1 l2 : List Str) : strJoin (l1 ++ l2) = strJoin l1 ++ strJoin l2 := by
  induction l1 with
  | nil => rfl
  | cons a r ih => simp [strJoin, ih, List.append_assoc]

theorem emitFields_nonpk_seg (title : Str) (pkf : Option Value) (cols : List ColInfo)
    (h0 : ∀ c ∈ cols, c.pk = 0)
    (hq : ∀ c ∈ cols, optPyEq pkf (Value.vstr c.name) = false) :
    emitFields title pkf (cols.map (fun c => (Value.vstr c.name, colMeta c))) =
      .ok (strJoin (cols.map expectedColLine), pkf) := by
  induction cols with
  | nil => rfl
  | cons c rest ih =>
    simp only [List.map_cons, emitFields,
      fieldLine_colMeta_nonpk title pkf c (h0 c (List.mem_cons_self _ _))
        (hq c (List.mem_cons_self _ _)),
      ih (fun x hx => h0 x (List.mem_cons_of_mem _ hx))
        (fun x hx => hq x (List.mem_cons_of_mem _ hx))]
    rfl

theorem emitFields_good (title : Str) (pre post : List ColInfo) (pkc : ColInfo)
    (hpre : ∀ c ∈ pre, c.pk = 0) (hpost : ∀ c ∈ post, c.pk = 0) (hpk : pkc.pk ≠ 0)
    (hname : ∀ c ∈ post, c.name ≠ pkc.name) :
    emitFields title none ((pre ++ pkc :: post).map (fun c => (Value.vstr c.name, colMeta c))) =
      .ok (strJoin ((pre ++ pkc :: post).map expectedColLine), some (.vstr pkc.name)) := by
  rw [List.map_append,
    emitFields_append title none _ _ _ none
      (emitFields_nonpk_seg title none pre hpre (fun c _ => rfl))]
  simp only [List.map_cons, emitFields, fieldLine_colMeta_pk title pkc hpk,
    emitFields_nonpk_seg title (some (.vstr pkc.name)) post hpost
      (fun c hc => by simp [optPyEq, pyEq]; exact Ne.symm (hname c hc))]
  rw [List.map_append, strJoin_append, List.map_cons]
  rfl

/-! ## The record loop, in row-local form -/

theorem head?_drop {α : Type} (l : List α) (n : Nat) : (l.drop n).head? = l.get? n := by
  induction l generalizing n with
  | nil => simp
  | cons a t ih =>
    cases n with
    | zero => simp
    | succ m => exact ih m

theorem insertLine_eq_rowLocal (s : Sheet) (fields : List Value) (i : Nat) (row : List Cell)
    (h : s.cells.getD i [] = row) :
    insertLine s fields i = rowInsertLine s.title fields.length row := by
  rw [insertLine, rowInsertLine, insertValues]
  have : ∀ j : Nat, cellAt s (i + 1) (j + 1) = row.getD j emptyCell := by
    intro j
    rw [cellAt, Nat.add_sub_cancel, Nat.add_sub_cancel, h]
  simp only [this]

theorem insertChunksAux_eq (s : Sheet) (fields : List Value) :
    ∀ (i : Nat) (rs : List (List Cell)), s.cells.drop i = rs →
    insertChunksAux s fields i rs =
      (rs.filter (fun row => row.any (fun c => truthyV c.value))).map
        (rowInsertLine s.title fields.length) := by
  intro i rs
  induction rs generalizing i with
  | nil => intro _; rfl
  | cons row rest ih =>
    intro h
    have hget : s.cells.getD i [] = row := by
      have h1 : s.cells.get? i = some row := by rw [← head?_drop, h]; rfl
      simp [List.getD_eq_getElem?_getD, ← List.get?_eq_getElem?, h1]
    have hdrop : s.cells.drop (i + 1) = rest := by
      have h2 : s.cells.drop (i + 1) = (s.cells.drop i).drop 1 := by
        rw [List.drop_drop]
      rw [h2, h]
      rfl
    rw [insertChunksAux, ih (i + 1) hdrop, insertLine_eq_rowLocal s fields i row hget]
    cases ha : row.any (fun c => truthyV c.value) with
    | true => simp [List.filter_cons, ha]
    | false => simp [List.filter_cons, ha]

/-- The record loop in row-local form: exactly the data rows with some
truthy cell produce an `INSERT`, in order. -/
theorem insertChunks_eq (s : Sheet) (fields : List Value) :
    insertChunks s fields =
      ((s.cells.drop 1).filter (fun row => row.any (fun c => truthyV c.value))).map
        (rowInsertLine s.title fields.length) :=
  insertChunksAux_eq s fields 1 _ rfl

theorem range_map_getD {α β : Type} (l : List α) (d : α) (f : α → β) :
    (List.range l.length).map (fun j => f (l.getD j d)) = l.map f := by
  induction l with
  | nil => rfl
  | cons a t ih =>
    rw [List.length_cons, List.range_succ_eq_map, List.map_cons, List.map_map, List.map_cons]
    have hpt : List.map ((fun j => f ((a :: t).getD j d)) ∘ Nat.succ) (List.range t.length)
        = List.map f t := by
      have h1 : List.map ((fun j => f ((a :: t).getD j d)) ∘ Nat.succ) (List.range t.length)
          = List.map (fun j => f (t.getD j d)) (List.range t.length) := by
        apply List.map_congr_left
        intro j _
        simp [Function.comp, List.getD_cons_succ, Nat.succ_eq_add_one]
      rw [h1, ih]
    rw [hpt]
    rfl

/-! ## Forward-written data rows through the record loop -/

theorem mkDataRow_getD_value (r : List (Option Value)) (j : Nat) :
    ((mkDataRow r).getD j emptyCell).value = r.getD j none := by
  induction r generalizing j with
  | nil => simp [mkDataRow, emptyCell]
  | cons v t ih =>
    cases j with
    | zero => rfl
    | succ m => simpa [mkDataRow, List.getD_cons_succ] using ih m

theorem mkDataRow_any (r : List (Option Value)) :
    (mkDataRow r).any (fun c => truthyV c.value) = r.any truthyV := by
  induction r with
  | nil => rfl
  | cons v t ih =>
    rw [mkDataRow, List.map_cons, List.any_cons, ← mkDataRow, ih, List.any_cons]

theorem rowInsertLine_mkDataRow (title : Str) (r : List (Option Value)) (n : Nat)
    (h : r.length = n) :
    rowInsertLine title n (mkDataRow r) =
      str "INSERT INTO \"" ++ title ++ str "\" VALUES(" ++
        joinValues (r.map cellToStr) ++ str ");\n" := by
  rw [rowInsertLine]
  have h1 : (List.range n).map (fun j => cellToStr ((mkDataRow r).getD j emptyCell).value) =
      (List.range r.length).map (fun j => cellToStr (r.getD j none)) := by
    rw [h]
    apply List.map_congr_left
    intro j _
    rw [mkDataRow_getD_value]
  rw [h1, range_map_getD r none cellToStr]

/-! ## Locating the unique primary-key column -/

theorem countP_eq_one_split {α : Type} (p : α → Bool) (l : List α)
    (h : l.countP p = 1) :
    ∃ l1 x l2, l = l1 ++ x :: l2 ∧ p x = true ∧
      (∀ y ∈ l1, p y = false) ∧ (∀ y ∈ l2, p y = false) := by
  induction l with
  | nil => simp [List.countP_nil] at h
  | cons a t ih =>
    cases pa : p a with
    | true =>
      have ht : t.countP p = 0 := by
        simpa [List.countP_cons, pa] using h
      refine ⟨[], a, t, rfl, pa, by simp, ?_⟩
      intro y hy
      have := List.countP_eq_zero.mp ht y hy
      simpa using this
    | false =>
      have ht : t.countP p = 1 := by
        simpa [List.countP_cons, pa] using h
      obtain ⟨l1, x, l2, rfl, hx, h1, h2⟩ := ih ht
      exact ⟨a :: l1, x, l2, rfl, hx, by
        intro y hy
        rcases List.mem_cons.mp hy with h | h
        · subst h; exact pa
        · exact h1 y h, h2⟩

theorem expectedPkName_split (t : DbObject) (pre post : List ColInfo) (pkc : ColInfo)
    (hsplit : t.info = pre ++ pkc :: post)
    (hpre : ∀ c ∈ pre, c.pk = 0) (hpk : pkc.pk ≠ 0) :
    expectedPkName t = pkc.name := by
  rw [expectedPkName, hsplit, List.find?_append]
  have h1 : pre.find? (fun c => c.pk != 0) = none := by
    rw [List.find?_eq_none]
    intro c hc
    simp [hpre c hc]
  rw [h1]
  have h2 : (pkc :: post).find? (fun c => c.pk != 0) = some pkc :=
    List.find?_cons_of_pos _ (by simpa using hpk)
  rw [h2]
  rfl

/-! ## One forward-written table through the reverse mapper -/

theorem createTable_split (s : Sheet) (pre post : List ColInfo) (pkc : ColInfo)
    (hpre : ∀ c ∈ pre, c.pk = 0) (hpost : ∀ c ∈ post, c.pk = 0) (hpk : pkc.pk ≠ 0)
    (hname : ∀ c ∈ post, c.name ≠ pkc.name) :
    createTable s ((pre ++ pkc :: post).map (fun c => Value.vstr c.name))
        ((pre ++ pkc :: post).map colMeta) =
      .ok (str "CREATE TABLE \"" ++ s.title ++ str "\" (\n" ++
        strJoin ((pre ++ pkc :: post).map expectedColLine) ++
        str "  PRIMARY KEY (" ++ pkc.name ++ str ")\n" ++ str ");\n") := by
  rw [createTable]
  have hz : ((pre ++ pkc :: post).map (fun c => Value.vstr c.name)).zip
      ((pre ++ pkc :: post).map colMeta) =
      (pre ++ pkc :: post).map (fun c => (Value.vstr c.name, colMeta c)) := by
    rw [List.zip_map']
  rw [hz]
  simp only [emitFields_good s.title pre post pkc hpre hpost hpk hname]
  rfl

theorem nodup_post_names (info pre post : List ColInfo) (pkc : ColInfo)
    (hsplit : info = pre ++ pkc :: post) (hnodup : (info.map (·.name)).Nodup) :
    ∀ c ∈ post, c.name ≠ pkc.name := by
  rw [hsplit, List.map_append, List.map_cons] at hnodup
  have h1 := hnodup.of_append_right
  have h2 : pkc.name ∉ post.map (·.name) := (List.nodup_cons.mp h1).1
  intro c hc he
  exact h2 (he ▸ List.mem_map_of_mem (·.name) hc)

theorem processSheet_mkSheet (t : DbObject) (hg : goodTable t) :
    processSheet (mkSheet (t.name.take 29) t) = .ok (expectedTable t) := by
  obtain ⟨hcount, hpk1, hnames, hnodup, _hascii, hrows⟩ := hg
  obtain ⟨pre, pkc, post, hsplit, hx, h1, h2⟩ :=
    countP_eq_one_split (fun c => c.pk != 0) t.info hcount
  have hpk : pkc.pk ≠ 0 := by simpa using hx
  have hpre : ∀ c ∈ pre, c.pk = 0 := fun c hc => by simpa using h1 c hc
  have hpost : ∀ c ∈ post, c.pk = 0 := fun c hc => by simpa using h2 c hc
  have hname := nodup_post_names t.info pre post pkc hsplit hnodup
  rw [processSheet, headerMetas_mkSheet _ t hnames hpk1, headerFields_mkSheet _ t hnames]
  have hct := createTable_split (mkSheet (t.name.take 29) t) pre post pkc
    hpre hpost hpk hname
  rw [← hsplit] at hct
  simp only [hct]
  have htitle : (mkSheet (t.name.take 29) t).title = t.name.take 29 := rfl
  rw [htitle]
  have hins : insertChunks (mkSheet (t.name.take 29) t)
      (t.info.map (fun c => Value.vstr c.name)) =
      t.rows.map (fun r =>
        str "INSERT INTO \"" ++ t.name.take 29 ++ str "\" VALUES(" ++
          joinValues (r.map cellToStr) ++ str ");\n") := by
    rw [insertChunks_eq]
    have hdrop : (mkSheet (t.name.take 29) t).cells.drop 1 = t.rows.map mkDataRow := rfl
    rw [hdrop, htitle]
    have hfilter : (t.rows.map mkDataRow).filter (fun row => row.any (fun c => truthyV c.value)) =
        t.rows.map mkDataRow := by
      apply List.filter_eq_self.mpr
      intro row hrow
      obtain ⟨r, hr, rfl⟩ := List.mem_map.mp hrow
      rw [mkDataRow_any]
      exact (hrows r hr).2
    rw [hfilter, List.map_map]
    apply List.map_congr_left
    intro r hr
    have hlen : r.length = t.info.length := (hrows r hr).1
    have := rowInsertLine_mkDataRow (t.name.take 29) r (t.info.map (fun c => Value.vstr c.name)).length
      (by rw [List.length_map]; exact hlen)
    simpa using this
  rw [hins]
  rw [expectedTable, expectedPkName_split t pre post pkc hsplit hpre hpk]

/-! ## Whole-run assembly -/

theorem sheetsLoop_map (ts : List DbObject) (f : DbObject → Sheet) (g : DbObject → Str)
    (h : ∀ t ∈ ts, processSheet (f t) = .ok (g t)) :
    ∀ acc, sheetsLoop acc (ts.map f) = .ok (acc ++ strJoin (ts.map g)) := by
  induction ts with
  | nil => intro acc; simp [sheetsLoop, strJoin]
  | cons t rest ih =>
    intro acc
    rw [List.map_cons, sheetsLoop]
    simp only [h t (List.mem_cons_self _ _)]
    rw [ih (fun x hx => h x (List.mem_cons_of_mem _ hx)) (acc ++ g t)]
    simp [strJoin, List.append_assoc]

theorem sqlToXlsxAux_nodup (ts : List DbObject) :
    ∀ (sheets : List Sheet) (names : List (Str × Str)),
    (∀ t ∈ ts, (t.name.take 29) ∉ sheets.map Sheet.title) →
    (ts.map (fun t => t.name.take 29)).Nodup →
    sqlToXlsxAux ts sheets names =
      (sheets ++ ts.map (fun t => mkSheet (t.name.take 29) t),
       names ++ ts.map (fun t => (t.name.take 29, t.name))) := by
  induction ts with
  | nil => intro sheets names _ _; simp [sqlToXlsxAux]
  | cons t rest ih =>
    intro sheets names hfresh hnd
    have hassign : assignTitle (sheets.map Sheet.title) (t.name.take 29) = t.name.take 29 := by
      rw [assignTitle, if_neg (hfresh t (List.mem_cons_self _ _))]
    rw [sqlToXlsxAux]
    simp only [hassign]
    have hfresh2 : ∀ x ∈ rest, (x.name.take 29) ∉
        (sheets ++ [mkSheet (t.name.take 29) t]).map Sheet.title := by
      intro x hx
      rw [List.map_append, List.mem_append]
      rintro (h | h)
      · exact hfresh x (List.mem_cons_of_mem _ hx) h
      · have hne : x.name.take 29 ≠ t.name.take 29 := by
          intro he
          have hmem : List.take 29 x.name ∈ List.map (fun t => List.take 29 t.name) rest :=
            List.mem_map_of_mem (fun t => List.take 29 t.name) hx
          rw [he] at hmem
          exact (List.nodup_cons.mp hnd).1 hmem
        simp [mkSheet] at h
        exact hne h
    rw [ih (sheets ++ [mkSheet (t.name.take 29) t]) (names ++ [(t.name.take 29, t.name)])
      hfresh2 (List.nodup_cons.mp hnd).2]
    simp [List.append_assoc]

theorem sql_to_xlsx_sheets (db : Database)
    (hnd : ((tablesOf db).map (fun t => t.name.take 29)).Nodup) :
    (sql_to_xlsx db).sheets = (tablesOf db).map (fun t => mkSheet (t.name.take 29) t) := by
  have h := sqlToXlsxAux_nodup (tablesOf db) [] [] (by simp) hnd
  show (sqlToXlsxAux (tablesOf db) [] []).1 = _
  rw [h]
  simp

theorem tableNamesOf_nodup (db : Database)
    (hnd : ((tablesOf db).map (fun t => t.name.take 29)).Nodup) :
    tableNamesOf db = (tablesOf db).map (fun t => (t.name.take 29, t.name)) := by
  have h := sqlToXlsxAux_nodup (tablesOf db) [] [] (by simp) hnd
  rw [tableNamesOf, h]
  simp

/-! ## General case analysis of the emission loop (arbitrary decoded metadata) -/

theorem exOk_iff {α : Type} (e : Except PyErr α) : exOk e = true ↔ ∃ v, e = .ok v := by
  cases e <;> simp [exOk]

theorem fieldLine_notruthy (title : Str) (pkf : Option Value) (fm : Value × JObj)
    (hk : metaKeysOk fm.2 = true) (hp : metaPkTruthy fm.2 = false) :
    ∃ line, fieldLine title pkf fm = .ok (line, pkf) := by
  simp only [metaKeysOk, Bool.and_eq_true, exOk_iff] at hk
  obtain ⟨⟨⟨pv, hpv⟩, tv, htv⟩, nv, hnv⟩ := hk
  have hpt : pv.jtruthy = false := by
    rw [metaPkTruthy, hpv] at hp
    exact hp
  simp only [fieldLine, hpv, hpt, htv, hnv]
  exact ⟨_, rfl⟩

theorem fieldLine_truthy_none (title : Str) (fm : Value × JObj)
    (hk : metaKeysOk fm.2 = true) (hp : metaPkTruthy fm.2 = true) :
    ∃ line, fieldLine title none fm = .ok (line, some fm.1) := by
  simp only [metaKeysOk, Bool.and_eq_true, exOk_iff] at hk
  obtain ⟨⟨⟨pv, hpv⟩, tv, htv⟩, nv, hnv⟩ := hk
  have hpt : pv.jtruthy = true := by
    rw [metaPkTruthy, hpv] at hp
    exact hp
  simp only [fieldLine, hpv, hpt, htv, hnv]
  exact ⟨_, rfl⟩

theorem fieldLine_truthy_some (title : Str) (v : Value) (fm : Value × JObj)
    (hp : metaPkTruthy fm.2 = true) :
    fieldLine title (some v) fm = .error (.xlsxParse
      (str "Table " ++ title ++ str ": multiple primary key fields detected!")) := by
  rw [metaPkTruthy] at hp
  cases hpv : dictGet fm.2 (str "pk") with
  | error e =>
    simp only [hpv] at hp
    cases hp
  | ok pv =>
    simp only [hpv] at hp
    simp [fieldLine, hpv, hp]

theorem emitFields_all_notruthy (title : Str) (l : List (Value × JObj))
    (hk : ∀ fm ∈ l, metaKeysOk fm.2 = true)
    (h0 : ∀ fm ∈ l, metaPkTruthy fm.2 = false) :
    ∀ pkf, ∃ out, emitFields title pkf l = .ok (out, pkf) := by
  induction l with
  | nil => intro pkf; exact ⟨[], rfl⟩
  | cons fm rest ih =>
    intro pkf
    obtain ⟨line, hline⟩ := fieldLine_notruthy title pkf fm
      (hk fm (List.mem_cons_self _ _)) (h0 fm (List.mem_cons_self _ _))
    obtain ⟨out, hout⟩ := ih (fun x hx => hk x (List.mem_cons_of_mem _ hx))
      (fun x hx => h0 x (List.mem_cons_of_mem _ hx)) pkf
    refine ⟨line ++ out, ?_⟩
    rw [emitFields]
    simp only [hline, hout]

theorem countP_pos_split {α : Type} (p : α → Bool) (l : List α)
    (h : 1 ≤ l.countP p) :
    ∃ l0 x l1, l = l0 ++ x :: l1 ∧ p x = true ∧ (∀ y ∈ l0, p y = false) ∧
      l.countP p = l1.countP p + 1 := by
  induction l with
  | nil => simp [List.countP_nil] at h
  | cons a t ih =>
    cases pa : p a with
    | true =>
      refine ⟨[], a, t, rfl, pa, by simp, ?_⟩
      simp [List.countP_cons, pa]
    | false =>
      have ht : 1 ≤ t.countP p := by
        rw [List.countP_cons, pa] at h
        simpa using h
      obtain ⟨l0, x, l1, rfl, hx, h0, hcnt⟩ := ih ht
      refine ⟨a :: l0, x, l1, rfl, hx, ?_, ?_⟩
      · intro y hy
        rcases List.mem_cons.mp hy with h | h
        · subst h; exact pa
        · exact h0 y h
      · rw [List.countP_cons, pa] at *
        simpa using hcnt

theorem emitFields_second_pk (title : Str) (v : Value) (l : List (Value × JObj))
    (hk : ∀ fm ∈ l, metaKeysOk fm.2 = true)
    (hp : 1 ≤ l.countP (fun fm => metaPkTruthy fm.2)) :
    emitFields title (some v) l = .error (.xlsxParse
      (str "Table " ++ title ++ str ": multiple primary key fields detected!")) := by
  obtain ⟨l0, x, l1, rfl, hx, h0, _⟩ := countP_pos_split _ l hp
  obtain ⟨out, hout⟩ := emitFields_all_notruthy title l0
    (fun fm hm => hk fm (List.mem_append_left _ hm)) h0 (some v)
  rw [emitFields_append title (some v) l0 (x :: l1) out (some v) hout]
  rw [emitFields]
  simp only [fieldLine_truthy_some title v x hx]

theorem emitFields_single_pk (title : Str) (l : List (Value × JObj))
    (hk : ∀ fm ∈ l, metaKeysOk fm.2 = true)
    (hp : l.countP (fun fm => metaPkTruthy fm.2) = 1) :
    ∃ out nm, emitFields title none l = .ok (out, some nm) := by
  obtain ⟨l0, x, l1, rfl, hx, h0, h1⟩ := countP_eq_one_split _ l hp
  obtain ⟨out0, hout0⟩ := emitFields_all_notruthy title l0
    (fun fm hm => hk fm (List.mem_append_left _ hm)) h0 none
  rw [emitFields_append title none l0 (x :: l1) out0 none hout0]
  obtain ⟨line, hline⟩ := fieldLine_truthy_none title x
    (hk x (List.mem_append_right _ (List.mem_cons_self _ _))) hx
  rw [emitFields]
  simp only [hline]
  obtain ⟨out1, hout1⟩ := emitFields_all_notruthy title l1
    (fun fm hm => hk fm (List.mem_append_right _ (List.mem_cons_of_mem _ hm))) h1 (some x.1)
  simp only [hout1]
  exact ⟨_, _, rfl⟩

theorem mapM_ok_length {α β : Type} (f : α → Except PyErr β) (l : List α)
    (ys : List β) (h : l.mapM f = .ok ys) : ys.length = l.length := by
  induction l generalizing ys with
  | nil =>
    rw [List.mapM_nil] at h
    cases h
    rfl
  | cons a t ih =>
    rw [List.mapM_cons] at h
    cases hf : f a with
    | error e => rw [hf] at h; cases h
    | ok b =>
      rw [hf] at h
      cases ht : t.mapM f with
      | error e =>
        rw [ht] at h
        cases h
      | ok bs =>
        rw [ht] at h
        cases h
        simp [ih bs ht]

theorem countP_zip_snd (fs : List Value) (ms : List JObj) (h : fs.length = ms.length) :
    (fs.zip ms).countP (fun fm => metaPkTruthy fm.2) = ms.countP metaPkTruthy := by
  induction fs generalizing ms with
  | nil =>
    cases ms with
    | nil => rfl
    | cons m t => cases h
  | cons f ft ih =>
    cases ms with
    | nil => cases h
    | cons m mt =>
      rw [List.zip_cons_cons, List.countP_cons, List.countP_cons,
        ih mt (by simpa using h)]

theorem sqlToXlsxAux_length (ts : List DbObject) :
    ∀ sheets names, (sqlToXlsxAux ts sheets names).1.length = sheets.length + ts.length := by
  induction ts with
  | nil => intro sheets names; simp [sqlToXlsxAux]
  | cons t rest ih =>
    intro sheets names
    rw [sqlToXlsxAux]
    rw [ih]
    simp
    omega

theorem sheetsLoop_prefix (sheets : List Sheet) :
    ∀ acc out, sheetsLoop acc sheets = .ok out → ∃ rest, out = acc ++ rest := by
  induction sheets with
  | nil =>
    intro acc out h
    rw [sheetsLoop] at h
    cases h
    exact ⟨[], by simp⟩
  | cons s rest ih =>
    intro acc out h
    rw [sheetsLoop] at h
    cases hp : processSheet s with
    | error e => rw [hp] at h; cases h
    | ok t =>
      rw [hp] at h
      obtain ⟨r2, hr2⟩ := ih (acc ++ t) out h
      exact ⟨t ++ r2, by rw [hr2, List.append_assoc]⟩

theorem createTable_ok_shape (s : Sheet) (fields : List Value) (metas : List JObj)
    (out : Str) (h : createTable s fields metas = .ok out) :
    ∃ rest, out = str "CREATE TABLE \"" ++ s.title ++ str "\" (\n" ++ rest := by
  rw [createTable] at h
  cases he : emitFields s.title none (fields.zip metas) with
  | error e => rw [he] at h; cases h
  | ok p =>
    obtain ⟨body, pkf⟩ := p
    rw [he] at h
    cases pkf with
    | none => cases h
    | some f =>
      cases h
      refine ⟨body ++ (str "  PRIMARY KEY (" ++ f.pystr ++ str ")\n" ++ str ");\n"), ?_⟩
      simp [List.append_assoc]

theorem lookup_map_take29 (ts : List DbObject)
    (hnd : (ts.map (fun t => t.name.take 29)).Nodup) (t : DbObject) (ht : t ∈ ts) :
    (ts.map (fun x => (x.name.take 29, x.name))).lookup (t.name.take 29) = some t.name := by
  induction ts with
  | nil => cases ht
  | cons a rest ih =>
    rcases List.mem_cons.mp ht with h | h
    · subst h
      simp [List.lookup]
    · have hne : (t.name.take 29 == a.name.take 29) = false := by
        have h1 : a.name.take 29 ∉ rest.map (fun x => x.name.take 29) :=
          (List.nodup_cons.mp hnd).1
        have h2 : List.take 29 t.name ∈ List.map (fun x => List.take 29 x.name) rest :=
          List.mem_map_of_mem (fun x => List.take 29 x.name) h
        simp only [beq_eq_false_iff_ne, ne_eq]
        intro he
        rw [← he] at h1
        exact h1 h2
      rw [List.map_cons, List.lookup, hne]
      exact ih (List.nodup_cons.mp hnd).2 h

theorem range_map_getD_pad {α β : Type} (row : List α) (d : α) (f : α → β) (n : Nat) :
    (List.range n).map (fun j => f (row.getD j d)) =
      (row.take n ++ List.replicate (n - row.length) d).map f := by
  induction n generalizing row with
  | zero => simp
  | succ m ih =>
    rw [List.range_succ_eq_map, List.map_cons, List.map_map]
    cases row with
    | nil =>
      have h1 : List.map ((fun j => f (List.getD ([] : List α) j d)) ∘ Nat.succ)
          (List.range m) = List.map (fun j => f (List.getD ([] : List α) j d))
          (List.range m) := by
        apply List.map_congr_left
        intro j _
        rfl
      rw [h1, ih []]
      simp [List.replicate_succ]
    | cons a t =>
      have h1 : List.map ((fun j => f (List.getD (a :: t) j d)) ∘ Nat.succ)
          (List.range m) = List.map (fun j => f (List.getD t j d)) (List.range m) := by
        apply List.map_congr_left
        intro j _
        simp [Function.comp, List.getD_cons_succ, Nat.succ_eq_add_one]
      rw [h1, ih t]
      simp [List.take_succ_cons]

/-! ## The claims -/

/-- C1 (amended): for every database state reached by a SQL script whose
tables each have exactly one primary-key column (with distinct nonempty
column names, printable-ASCII types, truncated table names pairwise
distinct), running `sql_to_xlsx` and then `xlsx_to_sql` reproduces every
`CREATE TABLE` column definition (name, type, not-null flag, primary-key
designation) and every row **that contains at least one Python-truthy
value**, with values coerced to strings; rows whose cells are all falsy
(`NULL`, `''`, `0`, `False`) are silently dropped by the reverse mapper's
blank-row skip, so the unrestricted claim fails. -/
theorem c1_round_trip (db : Database)
    (hg : ∀ t ∈ tablesOf db, goodTable t)
    (hnd : ((tablesOf db).map (fun t => t.name.take 29)).Nodup) :
    xlsx_to_sql (sql_to_xlsx db) = .ok (expectedScript db) := by
  rw [xlsx_to_sql, sql_to_xlsx_sheets db hnd,
    sheetsLoop_map (tablesOf db) _ expectedTable
      (fun t ht => processSheet_mkSheet t (hg t ht)) (str "BEGIN TRANSACTION;\n")]
  rfl

/-- C1 counterexample: a single-primary-key table whose only row holds the
integer `0` satisfies the claim's hypothesis, yet the reverse of the forward
conversion emits no `INSERT` for that row — the script expected by the claim
differs from the one produced. -/
theorem c1_counterexample :
    (c1ExDb.map (fun t => t.info.countP (fun c => c.pk != 0))) = [1] ∧
    xlsx_to_sql (sql_to_xlsx c1ExDb) =
      .ok (str "BEGIN TRANSACTION;\nCREATE TABLE \"t\" (\n\ta INTEGER,\n  PRIMARY KEY (a)\n);\nCOMMIT;\n") ∧
    expectedScript c1ExDb ≠
      str "BEGIN TRANSACTION;\nCREATE TABLE \"t\" (\n\ta INTEGER,\n  PRIMARY KEY (a)\n);\nCOMMIT;\n" :=
  ⟨by decide, rfl, by decide⟩

/-- C1 witness: a concrete one-table database with a truthy row
round-trips exactly as the amended claim states. -/
theorem c1_round_trip_witness :
    xlsx_to_sql (sql_to_xlsx c1WitDb) = .ok (expectedScript c1WitDb) :=
  c1_round_trip c1WitDb (by decide) (by decide)

/-- C3 (amended): the reverse mapper emits one `INSERT INTO` statement for
exactly those data rows containing at least one Python-truthy cell value;
rows in which every cell is empty, absent, or otherwise falsy (`0`,
`False`) are silently skipped.  The emitted chunks are, in order, the
per-row statements of the surviving rows. -/
theorem c3_blank_row_skipping (s : Sheet) (fields : List Value) :
    insertChunks s fields =
      ((s.cells.drop 1).filter (fun row => row.any (fun c => truthyV c.value))).map
        (rowInsertLine s.title fields.length) ∧
    (insertChunks s fields).length =
      (s.cells.drop 1).countP (fun row => row.any (fun c => truthyV c.value)) := by
  refine ⟨insertChunks_eq s fields, ?_⟩
  rw [insertChunks_eq, List.length_map, List.countP_eq_length_filter]

/-- C3 counterexample: a sheet whose middle data row holds the single
integer `0`: the row is not "empty or absent" in the claim's sense (three
of the three data rows have a present, non-empty-string cell), yet only two
`INSERT` statements are emitted — the `0` row is skipped by truthiness. -/
theorem c3_counterexample :
    exOk (processSheet c3ExSheet) = true ∧
    ((c3ExSheet.cells.drop 1).filter (fun row => !rowEmptyOrAbsent row)).length = 3 ∧
    (insertChunks c3ExSheet (headerFields c3ExSheet)).length = 2 :=
  ⟨rfl, by decide, rfl⟩

/-- C4 (amended): the forward mapper enumerates every `sqlite_master` row
whose kind is `table` — including sqlite's internal tables such as
`sqlite_sequence`, which are *not* filtered out — in catalog order
(a sublist of the catalog), and creates exactly one sheet per enumerated
table; only non-table objects (indexes, views, triggers) are excluded. -/
theorem c4_enumeration (db : Database) :
    (∀ o ∈ db, o.otype = str "table" → o ∈ tablesOf db) ∧
    List.Sublist (tablesOf db) db ∧
    (sql_to_xlsx db).sheets.length = (tablesOf db).length := by
  refine ⟨?_, List.filter_sublist db, ?_⟩
  · intro o ho ht
    rw [tablesOf]
    exact List.mem_filter.mpr ⟨ho, by simp [ht]⟩
  · show (sqlToXlsxAux (tablesOf db) [] []).1.length = _
    rw [sqlToXlsxAux_length]
    simp

/-- C4 witness: the internal `sqlite_sequence` catalog row is of table
kind, so the theorem places it among the enumerated tables. -/
theorem c4_witness : c4SeqTable ∈ tablesOf c4ExDb :=
  (c4_enumeration c4ExDb).1 c4SeqTable (by decide) (by decide)

/-- C4 counterexample: with `sqlite_sequence` present in the catalog as a
`type='table'` row, the enumeration — and hence the sheet list — includes
this internal table, refuting "internal/system tables are excluded". -/
theorem c4_counterexample :
    isInternalSqliteName (str "sqlite_sequence") = true ∧
    (tablesOf c4ExDb).map DbObject.name = [str "t1", str "sqlite_sequence"] ∧
    (sql_to_xlsx c4ExDb).sheets.map Sheet.title = [str "t1", str "sqlite_sequence"] :=
  ⟨by decide, by decide, by decide⟩

/-- C5 (amended): decoding verifies that the first `len(PREFIX)` characters
of the annotation equal the literal tag exactly and fails with the script's
own `XLSXParseError` — whose message includes the raw offending text — if
they do not.  When the tag matches but the remainder is malformed JSON, the
failure is the json library's `JSONDecodeError`, not the script's error
class; and an annotation whose JSON is valid but lacks the required keys
decodes *successfully* — the run only fails later, with a `KeyError`, when
the emission loop first reads the missing key. -/
theorem c5_decode_errors :
    (∀ text : Str, text.take autogenTag.length ≠ autogenTag →
      decodeComment text = .error (.xlsxParse
        (str "Comment verification failed: '" ++ text ++ str "'"))) ∧
    (∀ text : Str, text.take autogenTag.length = autogenTag →
      jsonLoads (text.drop autogenTag.length) = none →
      decodeComment text = .error .jsonDecode) ∧
    decodeComment c5MissingKeyComment = .ok [(str "a", .jint 1)] ∧
    processSheet c5MissingKeySheet = .error (.keyError (str "pk")) := by
  refine ⟨?_, ?_, rfl, rfl⟩
  · intro text h
    rw [decodeComment, if_neg h]
  · intro text h1 h2
    rw [decodeComment, if_pos h1, h2]

/-- C5 witness: a text that fails the tag check is rejected with the
script's parse error carrying the raw text. -/
theorem c5_witness :
    decodeComment (str "oops") = .error (.xlsxParse
      (str "Comment verification failed: '" ++ str "oops" ++ str "'")) :=
  c5_decode_errors.1 (str "oops") (by decide)

/-- C5 counterexample: a tagged annotation with malformed JSON fails with
the json library's decode error, not with the script's own
`XLSXParseError` class the claim names. -/
theorem c5_counterexample :
    decodeComment c5BadJsonComment = .error PyErr.jsonDecode ∧
    isXlsxParse (decodeComment c5BadJsonComment) = false :=
  ⟨rfl, rfl⟩

/-- C7: a header cell that carries no annotation at all decodes without
error to the default descriptor
`{type: "VARCHAR(255)", not_null: false, pk: 0}`. -/
theorem c7_default_descriptor :
    (∀ v : Option Value, decodeCellMeta { value := v, comment := none } = .ok DEFAULT_METADATA) ∧
    dictGet DEFAULT_METADATA (str "type") = .ok (.jstr (str "VARCHAR(255)")) ∧
    dictGet DEFAULT_METADATA (str "not_null") = .ok (.jbool false) ∧
    dictGet DEFAULT_METADATA (str "pk") = .ok (.jint 0) :=
  ⟨fun _ => rfl, rfl, rfl, rfl⟩

/-- C2: for a sheet whose header metadata all decodes and carries the three
required keys, the reverse mapper fails with its schema-validation error
("no primary key field detected!") when zero detected fields have a truthy
primary-key flag, fails with "multiple primary key fields detected!" when
two or more do, and succeeds when exactly one does. -/
theorem c2_primary_key_cardinality (s : Sheet) (metas : List JObj)
    (hm : headerMetas s = .ok metas)
    (hk : ∀ m ∈ metas, metaKeysOk m = true) :
    (pkCount metas = 1 → exOk (processSheet s) = true) ∧
    (pkCount metas = 0 → processSheet s = .error (.xlsxParse
      (str "Table " ++ s.title ++ str ": no primary key field detected!"))) ∧
    (2 ≤ pkCount metas → processSheet s = .error (.xlsxParse
      (str "Table " ++ s.title ++ str ": multiple primary key fields detected!"))) := by
  have hlen : metas.length = (headerRow s).length := mapM_ok_length _ _ _ hm
  have hflen : (headerFields s).length = metas.length := by
    rw [headerFields, List.length_map, hlen]
  have hzipcnt : ((headerFields s).zip metas).countP (fun fm => metaPkTruthy fm.2) =
      pkCount metas := countP_zip_snd _ _ hflen
  have hzipkeys : ∀ fm ∈ (headerFields s).zip metas, metaKeysOk fm.2 = true :=
    fun fm hfm => hk fm.2 (List.of_mem_zip hfm).2
  refine ⟨?_, ?_, ?_⟩
  · intro h1
    obtain ⟨out, nm, hemit⟩ := emitFields_single_pk s.title _ hzipkeys
      (by rw [hzipcnt]; exact h1)
    rw [processSheet]
    simp only [hm]
    rw [createTable]
    simp only [hemit]
    rfl
  · intro h0
    have hall : ∀ fm ∈ (headerFields s).zip metas, metaPkTruthy fm.2 = false := by
      have hz := List.countP_eq_zero.mp (by rw [hzipcnt]; exact h0)
      intro fm hfm
      simpa using hz fm hfm
    obtain ⟨out, hemit⟩ := emitFields_all_notruthy s.title _ hzipkeys hall none
    rw [processSheet]
    simp only [hm]
    rw [createTable]
    simp only [hemit]
  · intro h2
    have hc : 1 ≤ ((headerFields s).zip metas).countP (fun fm => metaPkTruthy fm.2) := by
      rw [hzipcnt]
      omega
    obtain ⟨l0, x, l1, hsp, hx, h0, hcnt⟩ := countP_pos_split _ _ hc
    have h1c : 1 ≤ l1.countP (fun fm => metaPkTruthy fm.2) := by
      rw [hzipcnt] at hcnt
      omega
    have hk0 : ∀ fm ∈ l0, metaKeysOk fm.2 = true :=
      fun fm hm' => hzipkeys fm (by rw [hsp]; exact List.mem_append_left _ hm')
    have hkx : metaKeysOk x.2 = true :=
      hzipkeys x (by rw [hsp]; exact List.mem_append_right _ (List.mem_cons_self _ _))
    have hk1 : ∀ fm ∈ l1, metaKeysOk fm.2 = true :=
      fun fm hm' => hzipkeys fm
        (by rw [hsp]; exact List.mem_append_right _ (List.mem_cons_of_mem _ hm'))
    obtain ⟨out0, hout0⟩ := emitFields_all_notruthy s.title l0 hk0 h0 none
    obtain ⟨line, hline⟩ := fieldLine_truthy_none s.title x hkx hx
    rw [processSheet]
    simp only [hm]
    rw [createTable, hsp,
      emitFields_append s.title none l0 (x :: l1) out0 none hout0, emitFields]
    simp only [hline,
      emitFields_second_pk s.title x.1 l1 hk1 h1c]

/-- C2 witness: one primary-key field succeeds; zero and two fail with the
respective schema-validation messages. -/
theorem c2_witness :
    exOk (processSheet c2OneSheet) = true ∧
    processSheet c2ZeroSheet = .error (.xlsxParse
      (str "Table " ++ c2ZeroSheet.title ++ str ": no primary key field detected!")) ∧
    processSheet c2TwoSheet = .error (.xlsxParse
      (str "Table " ++ c2TwoSheet.title ++ str ": multiple primary key fields detected!")) := by
  refine ⟨?_, ?_, ?_⟩
  · exact (c2_primary_key_cardinality c2OneSheet
      [[(str "type", .jstr (str "INTEGER")), (str "not_null", .jbool false),
        (str "pk", .jint 1)]] rfl (by decide)).1 (by decide)
  · exact (c2_primary_key_cardinality c2ZeroSheet
      [[(str "type", .jstr (str "TEXT")), (str "not_null", .jbool false),
        (str "pk", .jint 0)]] rfl (by decide)).2.1 (by decide)
  · exact (c2_primary_key_cardinality c2TwoSheet
      [[(str "type", .jstr (str "INTEGER")), (str "not_null", .jbool false),
        (str "pk", .jint 1)],
       [(str "type", .jstr (str "INTEGER")), (str "not_null", .jbool false),
        (str "pk", .jint 1)]] rfl (by decide)).2.2 (by decide)

/-- C6: for every table, the forward mapper requests the first 29
characters of the table name as the sheet title (when the truncated names
do not collide, that request is the finally-assigned title, of length at
most 29) and records in the workbook description's Document Metadata the
mapping from the finally-assigned sheet title back to the original table
name. -/
theorem c6_sheet_titles (db : Database)
    (hnd : ((tablesOf db).map (fun t => t.name.take 29)).Nodup) :
    ((sql_to_xlsx db).sheets.map Sheet.title = (tablesOf db).map (fun t => t.name.take 29)) ∧
    (∀ sh ∈ (sql_to_xlsx db).sheets, sh.title.length ≤ 29) ∧
    (∀ t ∈ tablesOf db, (tableNamesOf db).lookup (t.name.take 29) = some t.name) ∧
    ((sql_to_xlsx db).description = some (autogenTag ++ dumpTableNames (tableNamesOf db))) := by
  have hs := sql_to_xlsx_sheets db hnd
  refine ⟨?_, ?_, ?_, rfl⟩
  · rw [hs, List.map_map]
    rfl
  · intro sh hsh
    rw [hs] at hsh
    obtain ⟨t, ht, rfl⟩ := List.mem_map.mp hsh
    show (List.take 29 t.name).length ≤ 29
    rw [List.length_take]
    exact min_le_left _ _
  · intro t ht
    rw [tableNamesOf_nodup db hnd]
    exact lookup_map_take29 (tablesOf db) hnd t ht

/-- C6 witness: a 35-character table name yields the sheet title made of
its first 29 characters, and the recorded metadata maps that title back to
the full 35-character name. -/
theorem c6_witness :
    (sql_to_xlsx c6WitDb).sheets.map Sheet.title = [str "abcdefghijklmnopqrstuvwxyz123"] ∧
    (tableNamesOf c6WitDb).lookup (str "abcdefghijklmnopqrstuvwxyz123") =
      some (str "abcdefghijklmnopqrstuvwxyz123456789") := by
  have h := c6_sheet_titles c6WitDb (by decide)
  constructor
  · rw [h.1]
    decide
  · have h3 := h.2.2.1 c6WitTable (by decide)
    have he : List.take 29 c6WitTable.name = str "abcdefghijklmnopqrstuvwxyz123" := by decide
    rw [he] at h3
    exact h3

/-- C8: every successfully emitted script starts with
`BEGIN TRANSACTION;` and ends with `COMMIT;`; a missing cell serializes to
the empty string; every value — numeric cells included — is stringified and
wrapped in single quotes, with no escaping of embedded quote characters. -/
theorem c8_serialization (wb : Workbook) (out : Str) (h : xlsx_to_sql wb = .ok out) :
    (∃ mid, out = str "BEGIN TRANSACTION;\n" ++ mid ++ str "COMMIT;\n") ∧
    cellToStr none = [] ∧
    (∀ n : Int, joinValues [cellToStr (some (.vint n))] = '\'' :: ((toString n).data ++ ['\''])) ∧
    (∀ sv : Str, joinValues [cellToStr (some (.vstr sv))] = '\'' :: (sv ++ ['\''])) := by
  rw [xlsx_to_sql] at h
  cases hb : sheetsLoop (str "BEGIN TRANSACTION;\n") wb.sheets with
  | error e => rw [hb] at h; cases h
  | ok body =>
    rw [hb] at h
    cases h
    obtain ⟨rest, hrest⟩ := sheetsLoop_prefix wb.sheets _ _ hb
    subst hrest
    exact ⟨⟨rest, rfl⟩, rfl, fun n => rfl, fun sv => rfl⟩

/-- C8 witness: the script of a concrete one-sheet workbook carries the
transaction wrapper. -/
theorem c8_witness :
    ∃ mid, c8WitOut = str "BEGIN TRANSACTION;\n" ++ mid ++ str "COMMIT;\n" :=
  (c8_serialization c8WitWb c8WitOut rfl).1

/-- C9: the reverse mapper never consults the workbook description — two
workbooks with the same sheets convert identically regardless of their
descriptions — and each sheet's title is used verbatim in the emitted
`CREATE TABLE "<title>"` block and in every `INSERT INTO "<title>"`
statement. -/
theorem c9_title_verbatim :
    (∀ wb1 wb2 : Workbook, wb1.sheets = wb2.sheets → xlsx_to_sql wb1 = xlsx_to_sql wb2) ∧
    (∀ (s : Sheet) (out : Str), processSheet s = .ok out →
      ∃ rest, out = str "CREATE TABLE \"" ++ s.title ++ str "\" (\n" ++ rest) ∧
    (∀ (s : Sheet) (fields : List Value) (chunk : Str), chunk ∈ insertChunks s fields →
      ∃ rest, chunk = str "INSERT INTO \"" ++ s.title ++ str "\" VALUES(" ++ rest) := by
  refine ⟨?_, ?_, ?_⟩
  · intro wb1 wb2 hsh
    rw [xlsx_to_sql, xlsx_to_sql, hsh]
  · intro s out h
    rw [processSheet] at h
    cases hm : headerMetas s with
    | error e =>
      simp only [hm] at h
      exact Except.noConfusion h
    | ok metas =>
      simp only [hm] at h
      cases hct : createTable s (headerFields s) metas with
      | error e =>
        simp only [hct] at h
        exact Except.noConfusion h
      | ok ct =>
        simp only [hct] at h
        cases h
        obtain ⟨r1, hr1⟩ := createTable_ok_shape s (headerFields s) metas ct hct
        refine ⟨r1 ++ strJoin (insertChunks s (headerFields s)), ?_⟩
        rw [hr1]
        simp [List.append_assoc]
  · intro s fields chunk hchunk
    rw [insertChunks_eq] at hchunk
    obtain ⟨row, _, rfl⟩ := List.mem_map.mp hchunk
    refine ⟨joinValues ((List.range fields.length).map
      (fun j => cellToStr (row.getD j emptyCell).value)) ++ str ");\n", ?_⟩
    rw [rowInsertLine]
    simp [List.append_assoc]

/-- C9 witness: changing only the workbook description leaves the emitted
script unchanged. -/
theorem c9_witness :
    xlsx_to_sql { sheets := [c2OneSheet], description := some (str "IGNORED") } =
      xlsx_to_sql { sheets := [c2OneSheet], description := none } :=
  c9_title_verbatim.1 _ _ rfl

/-- C10: for every data row the reverse mapper emits, the value list has
exactly as many entries as there are detected header fields: it is built
from the row's first `fields.length` cells (cells to the right of the last
detected field are ignored), cells missing within that width are padded as
empty cells and contribute the empty string, and the emitted `INSERT` wraps
exactly that list. -/
theorem c10_insert_arity (s : Sheet) (i : Nat) (fields : List Value) :
    (insertValues s i fields.length).length = fields.length ∧
    insertValues s i fields.length =
      ((s.cells.getD i []).take fields.length ++
        List.replicate (fields.length - (s.cells.getD i []).length) emptyCell).map
        (fun c => cellToStr c.value) ∧
    insertLine s fields i =
      str "INSERT INTO \"" ++ s.title ++ str "\" VALUES(" ++
        joinValues (insertValues s i fields.length) ++ str ");\n" := by
  refine ⟨?_, ?_, rfl⟩
  · rw [insertValues, List.length_map, List.length_range]
  · rw [insertValues]
    have h1 : (List.range fields.length).map
        (fun j => cellToStr (cellAt s (i + 1) (j + 1)).value) =
        (List.range fields.length).map
        (fun j => cellToStr ((s.cells.getD i []).getD j emptyCell).value) := by
      apply List.map_congr_left
      intro j _
      rw [cellAt, Nat.add_sub_cancel, Nat.add_sub_cancel]
    rw [h1]
    exact range_map_getD_pad (s.cells.getD i []) emptyCell
      (fun c => cellToStr c.value) fields.length
